import Mathlib

/-!
Verification of `src/scripts/run_migrations.py`, a sequential Supabase
migration runner.  The script iterates a hardcoded list of SQL filenames;
for each one it checks existence of the resolved path, reads the file,
submits the text through a single `exec_sql` RPC call, and stops the whole
run on the first failure, signalling the result through the process exit
code (0 on success, 1 on first failure).

The embedding is a shallow one: the ambient effects (local filesystem,
remote RPC endpoint) are a `World` of pure functions, fallible operations
return `Except`, and every observable action of the script is recorded in
an explicit event trace, so that frame and temporal claims can be stated
over the trace.
-/

namespace RunMigrations

/-- Outcome of running a single migration, as classified by the spec:
the script prints a skip line and returns `True` when the file is absent,
prints a success line and returns `True` when the RPC call succeeds, and
prints an error line and returns `False` when any exception is caught. -/
inductive Outcome where
  | Applied : Outcome
  | SkippedMissing : Outcome
  | Failed : String → Outcome
deriving DecidableEq, Repr

/-- The boolean the Python function `run_migration` actually returns:
`True` for `Applied` and `SkippedMissing`, `False` for `Failed`. -/
def Outcome.toBool : Outcome → Bool
  | .Failed _ => false
  | _ => true

/-- Whether the outcome is a failure. -/
def Outcome.isFailed : Outcome → Bool
  | .Failed _ => true
  | _ => false

/-- Observable actions of the script.  `localWrite` is in the vocabulary so
that the frame claim "the local filesystem is never written" is a real
statement about the trace, not a vacuity; the embedding of the code never
emits it. -/
inductive Event where
  | checkExists : String → Event
  | readFile : String → Event
  | remoteCall : (fn : String) → (param : String) → (arg : String) → (file : String) → Event
  | printLine : String → Event
  | localWrite : String → Event
deriving DecidableEq, Repr

/-- Ambient world: local filesystem reads and the remote RPC endpoint.
`readText` and `execSql` return `Except.error e` when the corresponding
Python operation raises an exception with stringified message `e`. -/
structure World where
  pathExists : String → Bool
  readText : String → Except String String
  execSql : String → Except String Unit

/-- `migrations_dir = Path(__file__).parent.parent / "supabase" / "migrations"`. -/
def migrations_dir : String := "src/supabase/migrations"

/-- Path join, `dir / file` on `pathlib.Path`. -/
def joinPath (dir file : String) : String := dir ++ "/" ++ file

/-- The hardcoded migration list of the script, in literal order. -/
def migrations : List String :=
  ["003_storage_buckets.sql",
   "004_analytics_views.sql",
   "20250104_oauth_tokens.sql",
   "20250104_speakers_tables.sql"]

/-- `run_migration(filename)`: resolve the path; if it does not exist,
print a skip line and return `True` (`SkippedMissing`); otherwise, inside
one try block, read the whole file and submit it as the `query` parameter
of one `exec_sql` RPC call; any exception from the read or the call is
caught and turned into `Failed` with the stringified error (`False`). -/
def run_migration (w : World) (filename : String) : Outcome × List Event :=
  let filepath := joinPath migrations_dir filename
  if w.pathExists filepath = false then
    (Outcome.SkippedMissing,
      [Event.checkExists filepath,
       Event.printLine ("   ⏭️  " ++ filename ++ " - File not found, skipping")])
  else
    match w.readText filepath with
    | Except.error e =>
        (Outcome.Failed e,
          [Event.checkExists filepath, Event.readFile filepath,
           Event.printLine ("   ❌ " ++ filename ++ " - Error: " ++ e)])
    | Except.ok sql =>
        match w.execSql sql with
        | Except.ok _ =>
            (Outcome.Applied,
              [Event.checkExists filepath, Event.readFile filepath,
               Event.remoteCall "exec_sql" "query" sql filename,
               Event.printLine ("   ✅ " ++ filename)])
        | Except.error e =>
            (Outcome.Failed e,
              [Event.checkExists filepath, Event.readFile filepath,
               Event.remoteCall "exec_sql" "query" sql filename,
               Event.printLine ("   ❌ " ++ filename ++ " - Error: " ++ e)])

/-- The `for migration in migrations` loop of `main`: run each entry in
order; on the first `False` result print the failure lines and stop with
the failure flag.  Returns the list of (filename, outcome) pairs actually
invoked, the accumulated event trace, and `true` iff no entry failed. -/
def runList (w : World) : List String → List (String × Outcome) × List Event × Bool
  | [] => ([], [], true)
  | m :: rest =>
      let r := run_migration w m
      if r.1.toBool = false then
        ([(m, r.1)],
         r.2 ++ [Event.printLine ("\n❌ Migration failed: " ++ m),
                 Event.printLine "Stopping migration process."],
         false)
      else
        let t := runList w rest
        ((m, r.1) :: t.1, r.2 ++ t.2.1, t.2.2)

/-- The banner printed by `main` before the loop; it reports the length of
the migration list. -/
def headerEvents (migs : List String) : List Event :=
  [Event.printLine "🚀 Running database migrations...\n",
   Event.printLine "   Project: xhohhxoowqlldbdcpynj",
   Event.printLine ("   Total migrations: " ++ toString migs.length ++ "\n")]

/-- The success epilogue printed by `main` after the loop completes. -/
def footerEvents : List Event :=
  [Event.printLine "\n✅ All migrations completed successfully!",
   Event.printLine "\n📋 Next steps:",
   Event.printLine "   1. Verify tables in Supabase Dashboard",
   Event.printLine "   2. Deploy Edge Functions",
   Event.printLine "   3. Test the application locally: npm run dev"]

/-- `main()` over a given migration list: print the banner, run the loop,
return 1 on the first failure and 0 after full completion.  The result is
the return value (which `exit(main())` turns into the process exit code),
the invocation trace, and the full event trace. -/
def mainWith (w : World) (migs : List String) : Nat × List (String × Outcome) × List Event :=
  let t := runList w migs
  if t.2.2 then
    (0, t.1, headerEvents migs ++ t.2.1 ++ footerEvents)
  else
    (1, t.1, headerEvents migs ++ t.2.1)

/-- The actual `main()` of the script, over the hardcoded list. -/
def main (w : World) : Nat × List (String × Outcome) × List Event :=
  mainWith w migrations

/-- Process exit code of a run over `migs`. -/
def exitCodeWith (w : World) (migs : List String) : Nat := (mainWith w migs).1

/-- Filenames for which `run_migration` was invoked, in invocation order. -/
def invokedWith (w : World) (migs : List String) : List String :=
  (mainWith w migs).2.1.map Prod.fst

/-- Full event trace of a run over `migs`. -/
def eventsWith (w : World) (migs : List String) : List Event := (mainWith w migs).2.2

/-- Whether an event is a remote RPC call. -/
def Event.isRemoteCall : Event → Bool
  | .remoteCall _ _ _ _ => true
  | _ => false

/-- Whether an event is a remote RPC call submitted on behalf of the
migration file `name`. -/
def Event.isCallFor (name : String) : Event → Bool
  | .remoteCall _ _ _ f => f = name
  | _ => false

/-- Whether an event writes to the local filesystem. -/
def Event.isLocalWrite : Event → Bool
  | .localWrite _ => true
  | _ => false

/-! ### Basic lemmas about the embedding -/

theorem Outcome.toBool_eq_true_iff (o : Outcome) :
    o.toBool = true ↔ o = Outcome.Applied ∨ o = Outcome.SkippedMissing := by
  cases o <;> simp [Outcome.toBool]

theorem Outcome.isFailed_false_iff_toBool (o : Outcome) :
    o.isFailed = false ↔ o.toBool = true := by
  cases o <;> simp [Outcome.toBool, Outcome.isFailed]

theorem runList_nil (w : World) : runList w [] = ([], [], true) := rfl

theorem runList_cons (w : World) (m : String) (rest : List String) :
    runList w (m :: rest) =
      (let r := run_migration w m
       if r.1.toBool = false then
         ([(m, r.1)],
          r.2 ++ [Event.printLine ("\n❌ Migration failed: " ++ m),
                  Event.printLine "Stopping migration process."],
          false)
       else
         let t := runList w rest
         ((m, r.1) :: t.1, r.2 ++ t.2.1, t.2.2)) := rfl

theorem runList_cons_fail (w : World) (m : String) (rest : List String)
    (h : ((run_migration w m).1).toBool = false) :
    runList w (m :: rest) =
      ([(m, (run_migration w m).1)],
       (run_migration w m).2 ++
         [Event.printLine ("\n❌ Migration failed: " ++ m),
          Event.printLine "Stopping migration process."],
       false) := by
  rw [runList_cons]
  simp [h]

theorem runList_cons_ok (w : World) (m : String) (rest : List String)
    (h : ((run_migration w m).1).toBool = true) :
    runList w (m :: rest) =
      ((m, (run_migration w m).1) :: (runList w rest).1,
       (run_migration w m).2 ++ (runList w rest).2.1,
       (runList w rest).2.2) := by
  rw [runList_cons]
  simp [h]

theorem runList_ok_iff (w : World) (migs : List String) :
    (runList w migs).2.2 = true ↔
      ∀ m ∈ migs, ((run_migration w m).1).toBool = true := by
  induction migs with
  | nil => simp [runList_nil]
  | cons m rest ih =>
      rw [runList_cons]
      cases h : ((run_migration w m).1).toBool with
      | false => simp [h]
      | true => simp [h, ih]

theorem runList_trace_of_ok (w : World) (migs : List String)
    (h : ∀ m ∈ migs, ((run_migration w m).1).toBool = true) :
    (runList w migs).1.map Prod.fst = migs := by
  induction migs with
  | nil => simp [runList_nil]
  | cons m rest ih =>
      have hm := h m (List.mem_cons_self m rest)
      rw [runList_cons]
      simp [hm, ih fun x hx => h x (List.mem_cons_of_mem m hx)]

theorem mainWith_fst (w : World) (migs : List String) :
    (mainWith w migs).1 = if (runList w migs).2.2 then 0 else 1 := by
  simp only [mainWith]
  split <;> rfl

theorem mainWith_trace (w : World) (migs : List String) :
    (mainWith w migs).2.1 = (runList w migs).1 := by
  simp only [mainWith]
  split <;> rfl

theorem mainWith_events (w : World) (migs : List String) :
    (mainWith w migs).2.2 =
      headerEvents migs ++ (runList w migs).2.1 ++
        (if (runList w migs).2.2 then footerEvents else []) := by
  simp only [mainWith]
  split <;> simp

/-! ### Concrete worlds used by the witnesses -/

/-- World where every file exists, reads back its own path as content, and
every RPC call succeeds. -/
def wAllOk : World where
  pathExists := fun _ => true
  readText := fun p => Except.ok p
  execSql := fun _ => Except.ok ()

/-- World where every file exists and reads fine, but the SQL of `b.sql`
is rejected by the remote side. -/
def wFailB : World where
  pathExists := fun _ => true
  readText := fun p => Except.ok p
  execSql := fun q =>
    if q = joinPath migrations_dir "b.sql" then Except.error "syntax error"
    else Except.ok ()

/-- World where `b.sql` is absent from disk and everything else succeeds. -/
def wMissB : World where
  pathExists := fun p => !(p = joinPath migrations_dir "b.sql")
  readText := fun p => Except.ok p
  execSql := fun _ => Except.ok ()

/-- World where every path exists but opening it raises, e.g. the path
names a directory. -/
def wBadRead : World where
  pathExists := fun _ => true
  readText := fun _ => Except.error "IsADirectoryError"
  execSql := fun _ => Except.ok ()

/-! ### Claim theorems -/

/-- C1: the process exit code is 0 iff every migration in the fixed list
resulted in `Applied` or `SkippedMissing`; otherwise the process exits
with code 1 (no other exit code is possible). -/
theorem exit_code_zero_iff_all_ok (w : World) :
    ((main w).1 = 0 ↔
      ∀ m ∈ migrations,
        (run_migration w m).1 = Outcome.Applied ∨
        (run_migration w m).1 = Outcome.SkippedMissing) ∧
    ((main w).1 = 0 ∨ (main w).1 = 1) := by
  have h2 : (main w).1 = if (runList w migrations).2.2 then 0 else 1 :=
    mainWith_fst w migrations
  cases hc : (runList w migrations).2.2 with
  | true =>
      have h0 : (main w).1 = 0 := by rw [h2, hc, if_pos rfl]
      refine ⟨?_, Or.inl h0⟩
      simp only [h0, true_iff]
      intro m hm
      exact (Outcome.toBool_eq_true_iff _).mp
        ((runList_ok_iff w migrations).mp hc m hm)
  | false =>
      have h0 : (main w).1 = 1 := by rw [h2, hc]; rfl
      refine ⟨?_, Or.inr h0⟩
      rw [h0]
      refine iff_of_false (by decide) ?_
      intro hall
      have : (runList w migrations).2.2 = true :=
        (runList_ok_iff w migrations).mpr
          (fun m hm => (Outcome.toBool_eq_true_iff _).mpr (hall m hm))
      rw [hc] at this
      exact absurd this (by decide)

theorem runList_fail_split (w : World) (l1 : List String) (m : String) (l2 : List String)
    (h1 : ∀ x ∈ l1, ((run_migration w x).1).toBool = true)
    (h2 : ((run_migration w m).1).toBool = false) :
    (runList w (l1 ++ m :: l2)).1.map Prod.fst = l1 ++ [m] ∧
    (runList w (l1 ++ m :: l2)).2.2 = false := by
  induction l1 with
  | nil =>
      rw [List.nil_append, runList_cons]
      simp [h2]
  | cons a l1 ih =>
      have ha := h1 a (List.mem_cons_self a l1)
      have hrec := ih fun x hx => h1 x (List.mem_cons_of_mem a hx)
      rw [List.cons_append, runList_cons]
      simp [ha, hrec.1, hrec.2]

/-- C2: when a migration fails, the run stops immediately: the invocation
trace is exactly the successful prefix followed by the failing entry, so
`run_migration` is never invoked on any later entry, and the run exits 1. -/
theorem fail_fast_short_circuit (w : World) (l1 : List String) (m : String)
    (l2 : List String)
    (h1 : ∀ x ∈ l1, ((run_migration w x).1).toBool = true)
    (h2 : ((run_migration w m).1).toBool = false) :
    invokedWith w (l1 ++ m :: l2) = l1 ++ [m] ∧
    exitCodeWith w (l1 ++ m :: l2) = 1 := by
  have h := runList_fail_split w l1 m l2 h1 h2
  constructor
  · rw [invokedWith, mainWith_trace]
    exact h.1
  · rw [exitCodeWith, mainWith_fst, h.2]
    rfl

/-- C2 witness: in `wFailB`, on the list `["a.sql", "b.sql", "c.sql"]`
where `b.sql` fails remotely, only `a.sql` and `b.sql` are invoked and the
exit code is 1. -/
theorem fail_fast_short_circuit_witness :
    invokedWith wFailB (["a.sql"] ++ "b.sql" :: ["c.sql"]) = ["a.sql"] ++ ["b.sql"] ∧
    exitCodeWith wFailB (["a.sql"] ++ "b.sql" :: ["c.sql"]) = 1 :=
  fail_fast_short_circuit wFailB ["a.sql"] "b.sql" ["c.sql"]
    (by intro x hx; rw [List.mem_singleton] at hx; subst hx; decide)
    (by decide)

/-- C3: a migration whose resolved path does not exist yields
`SkippedMissing`, which counts as success; when no migration of the list
fails, the run still invokes every entry and exits 0. -/
theorem missing_file_skipped (w : World) (migs : List String) (m : String)
    (hm : m ∈ migs)
    (hmiss : w.pathExists (joinPath migrations_dir m) = false)
    (hok : ∀ x ∈ migs, ((run_migration w x).1).isFailed = false) :
    (run_migration w m).1 = Outcome.SkippedMissing ∧
    ((run_migration w m).1).toBool = true ∧
    exitCodeWith w migs = 0 ∧ invokedWith w migs = migs := by
  have hskip : (run_migration w m).1 = Outcome.SkippedMissing := by
    have _ := hm
    rw [run_migration]
    simp [hmiss]
  have hok2 : ∀ x ∈ migs, ((run_migration w x).1).toBool = true :=
    fun x hx => (Outcome.isFailed_false_iff_toBool _).mp (hok x hx)
  refine ⟨hskip, by rw [hskip]; rfl, ?_, ?_⟩
  · rw [exitCodeWith, mainWith_fst, (runList_ok_iff w migs).mpr hok2]
    rfl
  · rw [invokedWith, mainWith_trace]
    exact runList_trace_of_ok w migs hok2

/-- C3 witness: in `wMissB`, on `["a.sql", "b.sql", "c.sql"]` with `b.sql`
absent, `b.sql` is skipped, all three entries are invoked, and the run
exits 0. -/
theorem missing_file_skipped_witness :
    (run_migration wMissB "b.sql").1 = Outcome.SkippedMissing ∧
    ((run_migration wMissB "b.sql").1).toBool = true ∧
    exitCodeWith wMissB ["a.sql", "b.sql", "c.sql"] = 0 ∧
    invokedWith wMissB ["a.sql", "b.sql", "c.sql"] = ["a.sql", "b.sql", "c.sql"] :=
  missing_file_skipped wMissB ["a.sql", "b.sql", "c.sql"] "b.sql"
    (by decide) (by decide)
    (by intro x hx; fin_cases hx <;> decide)

/-- C4: when the file exists and reads as `sql` but the RPC call raises
`e`, `run_migration` catches the exception and returns the outcome
`Failed e`, the stringified error; nothing propagates (the function is
total and always yields an `Outcome`). -/
theorem remote_error_caught (w : World) (m sql e : String)
    (hex : w.pathExists (joinPath migrations_dir m) = true)
    (hrd : w.readText (joinPath migrations_dir m) = Except.ok sql)
    (hfail : w.execSql sql = Except.error e) :
    (run_migration w m).1 = Outcome.Failed e := by
  rw [run_migration]
  simp [hex, hrd, hfail]

/-- C4 witness: in `wFailB`, `b.sql` reads back its path as SQL, the RPC
call raises "syntax error", and the outcome is exactly `Failed "syntax
error"`. -/
theorem remote_error_caught_witness :
    (run_migration wFailB "b.sql").1 = Outcome.Failed "syntax error" :=
  remote_error_caught wFailB "b.sql" (joinPath migrations_dir "b.sql")
    "syntax error" (by decide) rfl (by rfl)

/-- C5: when every entry of the list succeeds, the run invokes
`run_migration` exactly once per entry, in literal list order, and exits
with code 0. -/
theorem all_ok_processes_in_order (w : World) (migs : List String)
    (hok : ∀ m ∈ migs, ((run_migration w m).1).toBool = true) :
    invokedWith w migs = migs ∧ exitCodeWith w migs = 0 := by
  constructor
  · rw [invokedWith, mainWith_trace]
    exact runList_trace_of_ok w migs hok
  · rw [exitCodeWith, mainWith_fst, (runList_ok_iff w migs).mpr hok]
    rfl

/-- C5 witness: in `wAllOk` the fixed list is processed entirely in order
and the run exits 0. -/
theorem all_ok_processes_in_order_witness :
    invokedWith wAllOk migrations = migrations ∧
    exitCodeWith wAllOk migrations = 0 :=
  all_ok_processes_in_order wAllOk migrations
    (by intro m hm; fin_cases hm <;> decide)

/-- C6: for a file that exists and reads as `sql`, `run_migration` makes
exactly one remote call, `exec_sql` with the single named parameter
`query`, whose value is the full file text unmodified — whether or not
the call then succeeds. -/
theorem submits_full_text_once (w : World) (m sql : String)
    (hex : w.pathExists (joinPath migrations_dir m) = true)
    (hrd : w.readText (joinPath migrations_dir m) = Except.ok sql) :
    ((run_migration w m).2).filter Event.isRemoteCall =
      [Event.remoteCall "exec_sql" "query" sql m] := by
  rw [run_migration]
  simp only [hex, hrd]
  cases hq : w.execSql sql <;>
    simp [Event.isRemoteCall, List.filter]

/-- C6 witness: in `wAllOk`, the first migration of the fixed list is
submitted as one `exec_sql` call carrying its full text. -/
theorem submits_full_text_once_witness :
    ((run_migration wAllOk "003_storage_buckets.sql").2).filter Event.isRemoteCall =
      [Event.remoteCall "exec_sql" "query"
        (joinPath migrations_dir "003_storage_buckets.sql")
        "003_storage_buckets.sql"] :=
  submits_full_text_once wAllOk "003_storage_buckets.sql"
    (joinPath migrations_dir "003_storage_buckets.sql") (by decide) rfl

/-- C7: on an empty migration list the run exits 0 immediately, invokes
`run_migration` on nothing, makes no remote call, and the banner reports
zero migrations. -/
theorem empty_list_exits_zero (w : World) :
    exitCodeWith w [] = 0 ∧ invokedWith w [] = [] ∧
    (eventsWith w []).filter Event.isRemoteCall = [] ∧
    Event.printLine "   Total migrations: 0\n" ∈ eventsWith w [] := by
  refine ⟨rfl, rfl, rfl, ?_⟩
  show Event.printLine "   Total migrations: 0\n" ∈
    headerEvents [] ++ ([] ++ footerEvents)
  decide

/-- C10: the per-migration try block also covers the local file read: when
the path exists but the read raises `e` (directory, decode error, ...),
the outcome is `Failed e` — not `SkippedMissing` — and it halts the run. -/
theorem read_error_is_failed (w : World) (m e : String)
    (hex : w.pathExists (joinPath migrations_dir m) = true)
    (hrd : w.readText (joinPath migrations_dir m) = Except.error e) :
    (run_migration w m).1 = Outcome.Failed e ∧
    (run_migration w m).1 ≠ Outcome.SkippedMissing ∧
    ((run_migration w m).1).toBool = false := by
  have h : (run_migration w m).1 = Outcome.Failed e := by
    rw [run_migration]
    simp [hex, hrd]
  refine ⟨h, ?_, ?_⟩
  · rw [h]
    simp
  · rw [h]
    rfl

/-- C10 witness: in `wBadRead`, reading `b.sql` raises and the outcome is
`Failed "IsADirectoryError"`, a failure that stops the run. -/
theorem read_error_is_failed_witness :
    (run_migration wBadRead "b.sql").1 = Outcome.Failed "IsADirectoryError" ∧
    (run_migration wBadRead "b.sql").1 ≠ Outcome.SkippedMissing ∧
    ((run_migration wBadRead "b.sql").1).toBool = false :=
  read_error_is_failed wBadRead "b.sql" "IsADirectoryError" (by decide) rfl

/-! ### Counting remote calls (no-retry claim) -/

theorem run_migration_callFor_ne (w : World) (m name : String) (h : m ≠ name) :
    ((run_migration w m).2).countP (Event.isCallFor name) = 0 := by
  simp only [run_migration]
  split
  · simp [Event.isCallFor, List.countP_cons, List.countP_nil]
  · split
    · simp [Event.isCallFor, List.countP_cons, List.countP_nil]
    · split <;>
        simp [Event.isCallFor, h, List.countP_cons, List.countP_nil]

theorem run_migration_callFor_le (w : World) (m name : String) :
    ((run_migration w m).2).countP (Event.isCallFor name) ≤ 1 := by
  by_cases h : m = name
  · subst h
    simp only [run_migration]
    split
    · simp [Event.isCallFor, List.countP_cons, List.countP_nil]
    · split
      · simp [Event.isCallFor, List.countP_cons, List.countP_nil]
      · split <;> simp [Event.isCallFor, List.countP_cons, List.countP_nil]
  · rw [run_migration_callFor_ne w m name h]
    exact Nat.zero_le 1

theorem runList_callFor_zero (w : World) (migs : List String) (name : String)
    (h : name ∉ migs) :
    ((runList w migs).2.1).countP (Event.isCallFor name) = 0 := by
  induction migs with
  | nil => simp [runList_nil]
  | cons m rest ih =>
      have hne : m ≠ name := fun hc => h (hc ▸ List.mem_cons_self m rest)
      have hr : name ∉ rest := fun hc => h (List.mem_cons_of_mem m hc)
      cases hb : ((run_migration w m).1).toBool with
      | false =>
          rw [runList_cons_fail w m rest hb]
          simp [List.countP_append, run_migration_callFor_ne w m name hne,
            Event.isCallFor, List.countP_cons, List.countP_nil]
      | true =>
          rw [runList_cons_ok w m rest hb]
          simp [List.countP_append, run_migration_callFor_ne w m name hne, ih hr]

theorem runList_callFor_le_one (w : World) (migs : List String) (name : String)
    (h : migs.Nodup) :
    ((runList w migs).2.1).countP (Event.isCallFor name) ≤ 1 := by
  induction migs with
  | nil => simp [runList_nil]
  | cons m rest ih =>
      have hm : m ∉ rest := (List.nodup_cons.mp h).1
      have h2 : rest.Nodup := (List.nodup_cons.mp h).2
      cases hb : ((run_migration w m).1).toBool with
      | false =>
          rw [runList_cons_fail w m rest hb, List.countP_append]
          have hle := run_migration_callFor_le w m name
          have hp : List.countP (Event.isCallFor name)
              [Event.printLine ("\n❌ Migration failed: " ++ m),
               Event.printLine "Stopping migration process."] = 0 := by
            simp [Event.isCallFor, List.countP_cons, List.countP_nil]
          omega
      | true =>
          rw [runList_cons_ok w m rest hb, List.countP_append]
          by_cases hmn : m = name
          · subst hmn
            have hz : ((runList w rest).2.1).countP (Event.isCallFor m) = 0 :=
              runList_callFor_zero w rest m hm
            have hle := run_migration_callFor_le w m m
            omega
          · have hz := run_migration_callFor_ne w m name hmn
            have hle := ih h2
            omega

/-- C8: no retry ever happens: over a full run on the fixed list, the
remote execution call is made at most once per migration filename, so a
migration whose call failed is never re-submitted. -/
theorem remote_call_at_most_once (w : World) (name : String) :
    (eventsWith w migrations).countP (Event.isCallFor name) ≤ 1 := by
  rw [eventsWith, mainWith_events, List.countP_append, List.countP_append]
  have hh : (headerEvents migrations).countP (Event.isCallFor name) = 0 := by
    simp [headerEvents, List.countP_cons, List.countP_nil, Event.isCallFor]
  have hf : ((if (runList w migrations).2.2 then footerEvents else []).countP
      (Event.isCallFor name)) = 0 := by
    split <;>
      simp [footerEvents, List.countP_cons, List.countP_nil, Event.isCallFor]
  rw [hh, hf]
  simpa using runList_callFor_le_one w migrations name (by decide)

/-! ### Frame: the local filesystem is never written -/

theorem run_migration_no_write (w : World) (m : String) :
    ((run_migration w m).2).all (fun e => !(Event.isLocalWrite e)) = true := by
  simp only [run_migration]
  split
  · simp [Event.isLocalWrite]
  · split
    · simp [Event.isLocalWrite]
    · split <;> simp [Event.isLocalWrite]

theorem runList_no_write (w : World) (migs : List String) :
    ((runList w migs).2.1).all (fun e => !(Event.isLocalWrite e)) = true := by
  induction migs with
  | nil => simp [runList_nil]
  | cons m rest ih =>
      cases hb : ((run_migration w m).1).toBool with
      | false =>
          rw [runList_cons_fail w m rest hb]
          simp only [List.all_append, Bool.and_eq_true]
          refine ⟨run_migration_no_write w m, ?_⟩
          simp [Event.isLocalWrite]
      | true =>
          rw [runList_cons_ok w m rest hb]
          simp only [List.all_append, Bool.and_eq_true]
          exact ⟨run_migration_no_write w m, ih⟩

/-- C9: no event of a full run writes local state: the trace contains only
local reads (existence checks and file reads), remote calls, and console
prints — never a `localWrite`; all state-changing effects are the remote
`exec_sql` submissions. -/
theorem no_local_writes (w : World) :
    ((main w).2.2).all (fun e => !(Event.isLocalWrite e)) = true := by
  rw [main, mainWith_events]
  simp only [List.all_append, Bool.and_eq_true]
  refine ⟨⟨?_, runList_no_write w migrations⟩, ?_⟩
  · simp [headerEvents, Event.isLocalWrite]
  · split <;> simp [footerEvents, Event.isLocalWrite]

end RunMigrations
